import Mathlib

/-!
# Verification of `@stratton-cologne/remote-modules` (src/src/index.ts)

A shallow embedding of the runtime module loader: manifest ingestion,
entry-source resolution (`resolveEntry`), dotted-key expansion
(`expandDottedKeys`), namespace-aware locale merging (`mergeLocales`),
duplicate-safe route registration, and the per-entry orchestration loop
(`loadRemoteModules`).

Modelling conventions:
* JavaScript runtime values occurring in locale trees are `LVal`
  (null / bool / number / string / array / object); objects are
  association lists in property-insertion order.
* Throwing code is embedded with `Except JsError`; a thrown value is
  represented by its message string.
* External collaborators (the browser URL constructor, `window.fetch`,
  dynamic `import`, the vue-router route table, the vue-i18n message
  store) are modelled explicitly and are marked as such in doc comments.
* The diagnostic sink (`log`) is modelled as a pure trace accumulator,
  and caller-callback invocations are recorded as events in the pass
  state so that they are observable.
-/

set_option autoImplicit false
set_option maxRecDepth 8000
set_option maxHeartbeats 1000000

namespace RemoteModules

/-- A thrown JavaScript value, represented by its message. -/
abbrev JsError := String

/-- JSON-like runtime values appearing in locale trees and manifests. -/
inductive LVal where
  | nullv : LVal
  | boolv : Bool → LVal
  | num : Int → LVal
  | str : String → LVal
  | arr : List LVal → LVal
  | obj : List (String × LVal) → LVal
  deriving Repr, BEq

/-- JavaScript truthiness of an `LVal` (arrays and objects are truthy). -/
def LVal.truthy : LVal → Bool
  | .nullv => false
  | .boolv b => b
  | .num n => n != 0
  | .str s => s != ""
  | .arr _ => true
  | .obj _ => true

/-- JavaScript property read on an object's field list (`o[k]`). -/
def getProp : List (String × LVal) → String → Option LVal
  | [], _ => none
  | (k, v) :: rest, key => if k = key then some v else getProp rest key

/-- JavaScript property assignment `o[k] = v`: an existing key keeps its
position, a new key is appended (insertion order). -/
def assign : List (String × LVal) → String → LVal → List (String × LVal)
  | [], k, v => [(k, v)]
  | (k1, v1) :: rest, k, v =>
      if k1 = k then (k1, v) :: rest else (k1, v1) :: assign rest k v

/-- `Object.keys` on a field list. -/
def keysOf (fs : List (String × LVal)) : List String := fs.map Prod.fst

/-- `Object.entries` of a JavaScript array: index strings paired with
elements. -/
def arrEntries (xs : List LVal) : List (String × LVal) :=
  xs.enum.map fun p => (toString p.1, p.2)

/-- View any `LVal` as an entry list, as `Object.keys`/`Object.entries`
would (objects: fields; arrays: index entries; primitives: empty). -/
def LVal.asRecord : LVal → List (String × LVal)
  | .obj fs => fs
  | .arr xs => arrEntries xs
  | _ => []

/-- `key.includes(".")` from the source: does the key contain a literal
dot? -/
def hasDot (k : String) : Bool := k.data.any fun c => c = '.'

/-- Character-level splitting used to model `key.split(".")`. -/
def splitDotsAux : List Char → List Char → List String
  | [], acc => [String.mk acc.reverse]
  | c :: cs, acc =>
      if c = '.' then String.mk acc.reverse :: splitDotsAux cs []
      else splitDotsAux cs (c :: acc)

/-- `key.split(".")` from the source. -/
def splitDots (k : String) : List String := splitDotsAux k.data []

/-- The imperative walk of `expandDottedKeys` that materialises one
dotted key: `cur[seg] = cur[seg] || {}` at inner segments, a plain
assignment at the last segment.  Walking into a primitive raises a
strict-mode `TypeError` in the source (property assignment on a
primitive); walking into an array would attach a string property to the
array object, which is outside this value model, so that branch is also
represented as an error. -/
def setDeep : List (String × LVal) → List String → LVal → Except JsError (List (String × LVal))
  | fs, [], _ => .ok fs
  | fs, [seg], v => .ok (assign fs seg v)
  | fs, seg :: seg2 :: rest, v =>
      let cur : LVal :=
        match getProp fs seg with
        | some c => if c.truthy then c else .obj []
        | none => .obj []
      match cur with
      | .obj gs =>
          match setDeep gs (seg2 :: rest) v with
          | .error e => .error e
          | .ok gs2 => .ok (assign fs seg (.obj gs2))
      | .arr _ => .error "unmodeled: string property assignment on an array"
      | _ => .error "TypeError: cannot create property on a primitive"

/-- `expandDottedKeys` from the source, processing entries in order into
the accumulated result object.  A dotted key is split and written along
its path; a non-null, non-array object value is expanded recursively;
arrays and primitives are kept as-is. -/
def expandGo : List (String × LVal) → List (String × LVal) → Except JsError (List (String × LVal))
  | acc, [] => .ok acc
  | acc, (k, v) :: rest =>
      if hasDot k then
        match v with
        | .obj gs =>
            match expandGo [] gs with
            | .error e => .error e
            | .ok egs =>
                match setDeep acc (splitDots k) (.obj egs) with
                | .error e => .error e
                | .ok acc2 => expandGo acc2 rest
        | v1 =>
            match setDeep acc (splitDots k) v1 with
            | .error e => .error e
            | .ok acc2 => expandGo acc2 rest
      else
        match v with
        | .obj gs =>
            match expandGo [] gs with
            | .error e => .error e
            | .ok egs => expandGo (assign acc k (.obj egs)) rest
        | v1 => expandGo (assign acc k v1) rest
  termination_by _ l => sizeOf l
  decreasing_by all_goals (simp_wf; try omega)

/-- `expandDottedKeys(obj)` on an object's field list. -/
def expandDottedKeys (fs : List (String × LVal)) : Except JsError (List (String × LVal)) :=
  expandGo [] fs

mutual
/-- Model of the external collaborator vue-i18n's deep merge: the new
value wins except that two objects are merged field by field. -/
def deepMerge : LVal → LVal → LVal
  | .obj olds, .obj news => .obj (mergeFields olds news)
  | _, n => n
  termination_by _ n => sizeOf n
  decreasing_by all_goals (simp_wf; try omega)

/-- Field-by-field merge of new fields into old fields. -/
def mergeFields : List (String × LVal) → List (String × LVal) → List (String × LVal)
  | olds, [] => olds
  | olds, (k, v) :: rest =>
      mergeFields
        (match getProp olds k with
         | some old => assign olds k (deepMerge old v)
         | none => olds ++ [(k, v)])
        rest
  termination_by _ l => sizeOf l
  decreasing_by all_goals (simp_wf; try omega)
end

/-- The i18n message store: language tag to message tree. -/
abbrev I18nStore := List (String × LVal)

/-- Model of the external collaborator
`i18n.global.mergeLocaleMessage(lang, msg)`: deep-merges `msg` into the
existing messages of `lang` (empty object when the language is new). -/
def mergeLocaleMessage (store : I18nStore) (lang : String) (msg : LVal) : I18nStore :=
  assign store lang (deepMerge ((getProp store lang).getD (.obj [])) msg)

/-- The final merge step of `mergeLocales`: with no namespace (null /
undefined / empty string) the expanded tree goes to the root of the
language's messages, otherwise it is nested one level under the
namespace key. -/
def mergeStep (store : I18nStore) (ns : Option String) (lang : String) (expanded : LVal) : I18nStore :=
  match ns with
  | none => mergeLocaleMessage store lang expanded
  | some n =>
      if n = "" then mergeLocaleMessage store lang expanded
      else mergeLocaleMessage store lang (.obj [(n, expanded)])

/-- `k.startsWith("__")` from the source, on the character list. -/
def isMetaKey (k : String) : Bool :=
  match k.data with
  | '_' :: '_' :: _ => true
  | _ => false

/-- The unwrap test of `mergeLocales`: the value has the namespace as a
property and every key is either the namespace or starts with the
reserved `__` metadata marker. -/
def hasOnlyNsAndMeta (fs : List (String × LVal)) (n : String) : Bool :=
  (keysOf fs).contains n && (keysOf fs).all fun k => k == n || isMetaKey k

/-- One iteration of the `mergeLocales` loop body for a single language
entry, exactly following the source: coerce a non-object to `{}`, unwrap
one level when merging with a namespace and the value's sole substantive
key (ignoring `__`-keys) is the namespace itself, expand dotted keys
(`Object.entries` of `null` throws), then merge either at the root or
under the namespace. -/
def mergeLocaleEntry (store : I18nStore) (ns : Option String) (lang : String) (msgs : LVal) :
    Except JsError I18nStore :=
  let raw : LVal :=
    match msgs with
    | .obj _ => msgs
    | .arr _ => msgs
    | _ => .obj []
  let normalized : LVal :=
    match ns with
    | some n =>
        if n ≠ "" then
          let fs := raw.asRecord
          if hasOnlyNsAndMeta fs n then (getProp fs n).getD .nullv else raw
        else raw
    | none => raw
  match normalized with
  | .obj fs =>
      match expandDottedKeys fs with
      | .error e => .error e
      | .ok efs => .ok (mergeStep store ns lang (.obj efs))
  | .arr xs =>
      match expandDottedKeys (arrEntries xs) with
      | .error e => .error e
      | .ok efs => .ok (mergeStep store ns lang (.obj efs))
  | .nullv => .error "TypeError: Object.entries called on null"
  | v => .ok (mergeStep store ns lang v)

/-- `mergeLocales(i18n, namespace, locales)` from the source: iterate
the language entries in order, mutating the store; a thrown error keeps
the merges already performed and propagates (to the per-entry catch of
the orchestrator).  `none` stands for both `null` and `undefined`
namespaces, which the source does not distinguish. -/
def mergeLocales (store : I18nStore) (ns : Option String) :
    List (String × LVal) → I18nStore × Option JsError
  | [] => (store, none)
  | (lang, msgs) :: rest =>
      match mergeLocaleEntry store ns lang msgs with
      | .ok s2 => mergeLocales s2 ns rest
      | .error e => (store, some e)

/-! ## Entry resolution -/

/-- Truthiness of an optional string field (`undefined` and `""` are
falsy). -/
def optTruthy : Option String → Bool
  | some s => s != ""
  | none => false

/-- Case-insensitive character-list test that `s` starts with the
(lowercase) pattern `p`. -/
def startsWithCI : List Char → List Char → Bool
  | _, [] => true
  | [], _ :: _ => false
  | c :: cs, d :: ds => (c.toLower = d) && startsWithCI cs ds

/-- The source's `/^https?:\/\//i` test. -/
def isHttpUrl (s : String) : Bool :=
  startsWithCI s.data "http://".data || startsWithCI s.data "https://".data

/-- Model of the external browser URL constructor `new URL(rel, base)`:
an already-absolute http(s) string is returned unchanged, anything else
is appended to the base. -/
def urlResolve (rel : String) (base : String) : String :=
  if isHttpUrl rel then rel else base ++ rel

/-- `toAbsoluteBase` from the source for a truthy base: an absolute URL
is kept, a relative one is resolved against `window.location.origin`
(modelled as string append). -/
def toAbsoluteBase (origin : String) (base : String) : String :=
  if isHttpUrl base then base else origin ++ base

/-- One manifest entry (`RemoteModuleRef`). -/
structure RemoteModuleRef where
  name : String
  version : String := ""
  baseUrl : Option String := none
  entry : Option String := none
  styles : Option (List String) := none
  entryDev : Option String := none
  spec : Option String := none
  prefer : Option String := none
  deriving Repr, BEq

/-- The three entry-source kinds. -/
inductive EntryKind where
  | dev
  | url
  | spec
  deriving Repr, BEq, DecidableEq

/-- A resolved entry: its kind and the address to import. -/
structure EntryInfo where
  kind : EntryKind
  source : String
  deriving Repr, BEq, DecidableEq

/-- The options consumed by `resolveEntry`. -/
structure ResolveOpts where
  preferDev : Bool
  allowDev : Option Bool := none
  resolveSpecifier : Option (String → Except JsError String) := none

/-- `resolveEntry` from the source: development source first (when
preferred and `allowDev ?? true`), then pre-built base+entry (an entry
that is already a full http(s) URL is used as-is), then the package
specifier (resolved by the caller's resolver unless already an http(s)
URL), otherwise `null`.  `origin` is the ambient
`window.location.origin`. -/
def resolveEntry (origin : String) (ref : RemoteModuleRef) (opts : ResolveOpts) :
    Except JsError (Option EntryInfo) :=
  let wantsDev := opts.preferDev && optTruthy ref.entryDev
  let canDev := wantsDev && (opts.allowDev.getD true)
  if canDev && optTruthy ref.entryDev then
    .ok (some { kind := .dev, source := ref.entryDev.getD "" })
  else if optTruthy ref.baseUrl && optTruthy ref.entry then
    let absBase := toAbsoluteBase origin (ref.baseUrl.getD "")
    let en := ref.entry.getD ""
    let source := if isHttpUrl en then en else urlResolve en absBase
    .ok (some { kind := .url, source := source })
  else if optTruthy ref.spec then
    let sp := ref.spec.getD ""
    if isHttpUrl sp then .ok (some { kind := .spec, source := sp })
    else
      match opts.resolveSpecifier with
      | some f =>
          match f sp with
          | .error e => .error e
          | .ok s => .ok (some { kind := .spec, source := s })
      | none => .ok (some { kind := .spec, source := sp })
  else
    .ok none

/-! ## Router, host state, bundles -/

/-- A candidate route as declared by a bundle (`RouteRecordRaw`); the
duplicate guard only inspects the top-level name and path. -/
structure RouteRecord where
  name : Option String := none
  path : String
  deriving Repr, BEq, DecidableEq

/-- Model of the external vue-router route table: the registered route
names (for `hasRoute`) and the registered paths (for `getRoutes()`,
compared by `path`). -/
structure RouterState where
  names : List String := []
  paths : List String := []
  deriving Repr, BEq, DecidableEq

/-- `router.hasRoute(name)`. -/
def RouterState.hasRoute (rt : RouterState) (n : String) : Bool := rt.names.contains n

/-- `routerHasPath` from the source: `getRoutes().some(r => r.path === path)`. -/
def routerHasPath (rt : RouterState) (p : String) : Bool := rt.paths.contains p

/-- `router.addRoute(route)`: registers the route's name (when it has
one) and its path. -/
def RouterState.addRoute (rt : RouterState) (r : RouteRecord) : RouterState :=
  { names := match r.name with | some n => rt.names ++ [n] | none => rt.names,
    paths := rt.paths ++ [r.path] }

/-- The number of registered routes. -/
def RouterState.count (rt : RouterState) : Nat := rt.paths.length

/-- Mutable host state reachable through the `ModuleContext`: the route
table and the i18n message store (`app` and `pinia` are opaque and never
inspected by the loader). -/
structure HostState where
  router : RouterState
  i18n : I18nStore

/-- `ModuleBundle`: the default export of an imported module.  The
install hook may mutate host state and may throw;
`i18nNamespace = none` is `undefined` (defer to the strategy),
`some none` is explicit `null`, `some (some s)` an explicit string. -/
structure ModuleBundle where
  name : String
  version : String := ""
  routes : Option (List RouteRecord) := none
  locales : Option (List (String × LVal)) := none
  install : Option (HostState → Except JsError HostState) := none
  i18nNamespace : Option (Option String) := none

/-- `NamespaceStrategy`: the literal module name, or a caller-supplied
function of (name, bundle) which may throw. -/
inductive NamespaceStrategy where
  | moduleName
  | computed (f : String → ModuleBundle → Except JsError String)

/-- `DuplicateRouteGuard`: `"name"`, `"path"`, or `false`. -/
inductive DuplicateRouteGuard where
  | byName
  | byPath
  | off
  deriving Repr, BEq, DecidableEq

/-- Log levels of the diagnostic sink. -/
inductive Level where
  | info
  | warn
  | error
  deriving Repr, BEq, DecidableEq

/-- One diagnostic line: level and message. -/
abbrev LogMsg := Level × String

/-- The manifest response as seen by the orchestrator: `res.ok`,
`res.status`, and the result of `res.json()` (which may throw). -/
structure ManifestResponse where
  ok : Bool
  status : Nat := 200
  json : Except JsError (List RemoteModuleRef)

/-- The ambient environment: production flag (`import.meta.env.PROD`),
`window.location.origin`, `window.fetch`, and the dynamic `import`
(returning the default export, when present). -/
structure Env where
  isProd : Bool := false
  origin : String := "http://localhost"
  windowFetch : String → Except JsError ManifestResponse
  importMod : String → Except JsError (Option ModuleBundle)

/-- `ModuleLoaderOptions` (the caller configuration surface).  The
diagnostic sink `log` is modelled as the pass trace rather than a
caller function. -/
structure ModuleLoaderOptions where
  manifestUrl : Option String := none
  fetchFn : Option (String → Except JsError ManifestResponse) := none
  i18nNamespaceStrategy : Option NamespaceStrategy := none
  guardDuplicateRoutes : Option DuplicateRouteGuard := none
  onModuleLoaded : Option (ModuleBundle → RemoteModuleRef → Except JsError Unit) := none
  onModuleError : Option (RemoteModuleRef → JsError → Except JsError Unit) := none
  mapManifest : Option (List RemoteModuleRef → Except JsError (List RemoteModuleRef)) := none
  preferDevEntries : Option Bool := none
  resolveSpecifier : Option (String → Except JsError String) := none
  allowDevEntryInProd : Option Bool := none

/-- A recorded invocation of a caller callback. -/
inductive CallbackEvent where
  | loadedCb (bundle : ModuleBundle) (ref : RemoteModuleRef)
  | errorCb (ref : RemoteModuleRef) (e : JsError)

/-- The state threaded through one manifest pass: host state, attached
stylesheet links (`document.head`), the diagnostic trace, recorded
callback invocations, and the accumulating `LoadResult` lists. -/
structure PassState where
  host : HostState
  css : List String := []
  trace : List LogMsg := []
  events : List CallbackEvent := []
  loaded : List (ModuleBundle × RemoteModuleRef) := []
  errors : List (RemoteModuleRef × JsError) := []

/-- `LoadResult`: successfully loaded (bundle, ref) pairs and (ref,
error) pairs, in pass order. -/
structure LoadResult where
  loaded : List (ModuleBundle × RemoteModuleRef)
  errors : List (RemoteModuleRef × JsError)

/-- The `LoadResult` carried by a pass state. -/
def PassState.result (st : PassState) : LoadResult :=
  { loaded := st.loaded, errors := st.errors }

/-- The effective configuration after defaulting, as computed at the top
of `loadRemoteModules`. -/
structure PassCfg where
  preferDev : Bool
  allowDev : Option Bool
  resolveSpecifier : Option (String → Except JsError String)
  nsStrategy : NamespaceStrategy
  guard : DuplicateRouteGuard
  onModuleLoaded : Option (ModuleBundle → RemoteModuleRef → Except JsError Unit)
  onModuleError : Option (RemoteModuleRef → JsError → Except JsError Unit)

/-! ## Orchestrator -/

/-- Namespace determination at the locale-merge step: the bundle's own
`i18nNamespace` when not `undefined`, otherwise the configured strategy
(the literal module name, or the caller function, which may throw). -/
def resolveNamespace (strategy : NamespaceStrategy) (bundle : ModuleBundle) :
    Except JsError (Option String) :=
  match bundle.i18nNamespace with
  | some ns => .ok ns
  | none =>
      match strategy with
      | .moduleName => .ok (some bundle.name)
      | .computed f =>
          match f bundle.name bundle with
          | .error e => .error e
          | .ok s => .ok (some s)

/-- The duplicate-route guard applied to one candidate route, exactly as
in the registration loop: under `"name"`, a truthy-named candidate is
skipped when the router already has that name, and an unnamed candidate
is skipped when its truthy path is already registered; under `"path"`, a
candidate with a truthy registered path is skipped; with the guard
disabled everything is admitted. -/
def routeStep (guard : DuplicateRouteGuard) (rt : RouterState) (r : RouteRecord) :
    RouterState × List LogMsg :=
  match guard with
  | .byName =>
      let hasName := optTruthy r.name
      if hasName && rt.hasRoute (r.name.getD "") then
        (rt, [(Level.warn, "Route-Name bereits vorhanden → skip: " ++ r.name.getD "")])
      else if !hasName && r.path != "" && routerHasPath rt r.path then
        (rt, [(Level.warn, "Route-Pfad (Fallback) vorhanden → skip: " ++ r.path)])
      else (rt.addRoute r, [])
  | .byPath =>
      if r.path != "" && routerHasPath rt r.path then
        (rt, [(Level.warn, "Route-Pfad vorhanden → skip: " ++ r.path)])
      else (rt.addRoute r, [])
  | .off => (rt.addRoute r, [])

/-- The route-registration loop over a bundle's declared routes. -/
def registerRoutes (guard : DuplicateRouteGuard) :
    RouterState → List LogMsg → List RouteRecord → RouterState × List LogMsg
  | rt, tr, [] => (rt, tr)
  | rt, tr, r :: rest =>
      let step := routeStep guard rt r
      registerRoutes guard step.1 (tr ++ step.2) rest

/-- The warning logged when no entry descriptor is usable. -/
def noEntryMsg (ref : RemoteModuleRef) : LogMsg :=
  (Level.warn,
    "Kein gültiger Entry für Modul " ++ ref.name ++
      ". Erwartet entryDev (Dev) ODER baseUrl+entry (URL) ODER spec.")

/-- The error line logged by the per-entry catch block. -/
def errLogMsg (ref : RemoteModuleRef) : LogMsg :=
  (Level.error, "Fehler beim Laden von " ++ ref.name ++ "@" ++ ref.version ++ ":")

/-- `bundle.install?.(ctx)`: run the optional install hook on the host
state. -/
def runInstall (hook : Option (HostState → Except JsError HostState)) (h : HostState) :
    Except JsError HostState :=
  match hook with
  | some f => f h
  | none => .ok h

/-- Apply the optional caller `mapManifest` transform. -/
def applyMapManifest
    (f? : Option (List RemoteModuleRef → Except JsError (List RemoteModuleRef)))
    (refs : List RemoteModuleRef) : Except JsError (List RemoteModuleRef) :=
  match f? with
  | some f => f refs
  | none => .ok refs

/-- Step 1 of the per-entry body: when the reference has a truthy base
URL and a non-empty styles list, attach each stylesheet link resolved
against the absolute base (`loadCss`). -/
def stylesStep (env : Env) (st : PassState) (ref : RemoteModuleRef) : PassState :=
  if optTruthy ref.baseUrl && ((ref.styles.getD []).length != 0) then
    let absBase := toAbsoluteBase env.origin (ref.baseUrl.getD "")
    { st with css := st.css ++ (ref.styles.getD []).map fun s => urlResolve s absBase }
  else st

/-- The body of the per-entry `try` block of `loadRemoteModules`
(steps 1 to 6): load styles, resolve the entry (a missing entry skips
the module with a warning and no records), import, validate the bundle,
determine the namespace, merge locales, register routes, run the
install hook, record the loaded pair, invoke the success callback, log.
The returned error, if any, is what the `catch` block receives; the
state already reflects every mutation made before the throw (partial
application is kept, never rolled back). -/
def processOne (env : Env) (cfg : PassCfg) (st : PassState) (ref : RemoteModuleRef) :
    PassState × Option JsError :=
  let st1 := stylesStep env st ref
  match resolveEntry env.origin ref
      { preferDev := cfg.preferDev, allowDev := cfg.allowDev,
        resolveSpecifier := cfg.resolveSpecifier } with
  | .error e => (st1, some e)
  | .ok none => ({ st1 with trace := st1.trace ++ [noEntryMsg ref] }, none)
  | .ok (some entryInfo) =>
      match env.importMod entryInfo.source with
      | .error e => (st1, some e)
      | .ok none => (st1, some "Ungültiges Bundle: default export fehlt oder name leer")
      | .ok (some bundle) =>
          if bundle.name = "" then
            (st1, some "Ungültiges Bundle: default export fehlt oder name leer")
          else
            match resolveNamespace cfg.nsStrategy bundle with
            | .error e => (st1, some e)
            | .ok ns =>
                let merged :=
                  match bundle.locales with
                  | some locs =>
                      let m := mergeLocales st1.host.i18n ns locs
                      ({ st1 with host := { st1.host with i18n := m.1 } }, m.2)
                  | none => (st1, none)
                match merged.2 with
                | some e => (merged.1, some e)
                | none =>
                    let st2 := merged.1
                    let st3 :=
                      match bundle.routes with
                      | some rs =>
                          let reg := registerRoutes cfg.guard st2.host.router [] rs
                          { st2 with host := { st2.host with router := reg.1 },
                                     trace := st2.trace ++ reg.2 }
                      | none => st2
                    match runInstall bundle.install st3.host with
                    | .error e => (st3, some e)
                    | .ok h2 =>
                        let st4 :=
                          { st3 with
                              host := h2,
                              loaded := st3.loaded ++ [(bundle, ref)] }
                        match cfg.onModuleLoaded with
                        | some f =>
                            let st5 := { st4 with
                              events := st4.events ++ [CallbackEvent.loadedCb bundle ref] }
                            match f bundle ref with
                            | .error e => (st5, some e)
                            | .ok _ =>
                                ({ st5 with trace := st5.trace ++
                                    [(Level.info, "loaded " ++ bundle.name ++ "@" ++ bundle.version)] },
                                  none)
                        | none =>
                            ({ st4 with trace := st4.trace ++
                                [(Level.info, "loaded " ++ bundle.name ++ "@" ++ bundle.version)] },
                              none)

/-- The manifest loop: each entry is processed under its own
try/catch.  A caught error appends the (ref, error) record, invokes the
caller's error callback when supplied (an error thrown by that callback
escapes the whole pass, since the catch block is not itself guarded),
logs, and continues with the next entry. -/
def runRefs (env : Env) (cfg : PassCfg) :
    PassState → List RemoteModuleRef → Except JsError PassState
  | st, [] => .ok st
  | st, ref :: rest =>
      match processOne env cfg st ref with
      | (st2, none) => runRefs env cfg st2 rest
      | (st2, some e) =>
          let st3 := { st2 with errors := st2.errors ++ [(ref, e)] }
          match cfg.onModuleError with
          | some f =>
              let st4 := { st3 with events := st3.events ++ [CallbackEvent.errorCb ref e] }
              match f ref e with
              | .error e2 => .error e2
              | .ok _ => runRefs env cfg { st4 with trace := st4.trace ++ [errLogMsg ref] } rest
          | none => runRefs env cfg { st3 with trace := st3.trace ++ [errLogMsg ref] } rest

/-- `loadRemoteModules` from the source.  Manifest failures (a rejected
fetch, a non-success status, a `json()` throw) return the empty result
with a diagnostic instead of propagating.  The caller's `mapManifest`
runs outside any try/catch, so an error it throws escapes to the
caller, as does an error thrown by `onModuleError` inside the per-entry
catch block. -/
def loadRemoteModules (env : Env) (host : HostState) (options : ModuleLoaderOptions) :
    Except JsError PassState :=
  let fetchImpl := options.fetchFn.getD env.windowFetch
  let manifestUrl := options.manifestUrl.getD "/modules/index.json"
  let nsStrategy := options.i18nNamespaceStrategy.getD .moduleName
  let guard := options.guardDuplicateRoutes.getD .byName
  let preferDev := options.preferDevEntries.getD (!env.isProd)
  let st0 : PassState := { host := host }
  match fetchImpl manifestUrl with
  | .error _ => .ok { st0 with trace := [(Level.error, "Manifest-Fehler:")] }
  | .ok res =>
      if !res.ok then
        .ok { st0 with trace :=
          [(Level.warn, "Manifest nicht erreichbar (" ++ manifestUrl ++ "): " ++ toString res.status)] }
      else
        match res.json with
        | .error _ => .ok { st0 with trace := [(Level.error, "Manifest-Fehler:")] }
        | .ok refs0 =>
            match applyMapManifest options.mapManifest refs0 with
            | .error e => .error e
            | .ok refs =>
                runRefs env
                  { preferDev := preferDev, allowDev := options.allowDevEntryInProd,
                    resolveSpecifier := options.resolveSpecifier, nsStrategy := nsStrategy,
                    guard := guard, onModuleLoaded := options.onModuleLoaded,
                    onModuleError := options.onModuleError }
                  st0 refs

/-! ## Projections used by the claim statements -/

/-- Did the call return (rather than throw)? -/
def passOk : Except JsError PassState → Bool
  | .ok _ => true
  | .error _ => false

/-- The error records of a returned pass (empty when the call threw). -/
def passErrors : Except JsError PassState → List (RemoteModuleRef × JsError)
  | .ok st => st.errors
  | .error _ => []

/-- The loaded records of a returned pass. -/
def passLoaded : Except JsError PassState → List (ModuleBundle × RemoteModuleRef)
  | .ok st => st.loaded
  | .error _ => []

/-- The callback invocations of a returned pass. -/
def passEvents : Except JsError PassState → List CallbackEvent
  | .ok st => st.events
  | .error _ => []

/-- The field list stored under namespace `n` inside language `lang` of
the store (empty when absent or not an object). -/
def subtreeAt (store : I18nStore) (lang n : String) : List (String × LVal) :=
  match getProp store lang with
  | some (.obj fs) =>
      match getProp fs n with
      | some (.obj gs) => gs
      | _ => []
  | _ => []

/-- No key of the tree contains a literal dot, recursing through object
values; arrays are leaves for this predicate, mirroring that the
expansion keeps them as-is. -/
def dotFreeVal : LVal → Bool
  | .obj [] => true
  | .obj ((k, v) :: rest) => !hasDot k && dotFreeVal v && dotFreeVal (.obj rest)
  | _ => true
  termination_by v => sizeOf v
  decreasing_by all_goals (simp_wf; try omega)

/-! ## Association-list lemmas -/

theorem getProp_assign_self (fs : List (String × LVal)) (k : String) (v : LVal) :
    getProp (assign fs k v) k = some v := by
  induction fs with
  | nil => simp [assign, getProp]
  | cons p rest ih =>
      obtain ⟨k1, v1⟩ := p
      by_cases h : k1 = k
      · simp [assign, h, getProp]
      · simp [assign, h, getProp, ih]

theorem getProp_assign_ne (fs : List (String × LVal)) (k k1 : String) (v : LVal)
    (h : k1 ≠ k) : getProp (assign fs k v) k1 = getProp fs k1 := by
  have h' : k ≠ k1 := Ne.symm h
  induction fs with
  | nil => simp [assign, getProp, h']
  | cons p rest ih =>
      obtain ⟨k2, v2⟩ := p
      by_cases h2 : k2 = k
      · subst h2
        simp [assign, getProp, h']
      · simp [assign, h2, getProp, ih]

theorem getProp_append_of_none (fs : List (String × LVal)) (k : String) (v : LVal)
    (h : getProp fs k = none) : getProp (fs ++ [(k, v)]) k = some v := by
  induction fs with
  | nil => simp [getProp]
  | cons p rest ih =>
      obtain ⟨k1, v1⟩ := p
      by_cases h1 : k1 = k
      · simp [getProp, h1] at h
      · simp [getProp, h1] at h ⊢
        exact ih h

theorem getProp_append_ne (fs : List (String × LVal)) (k k1 : String) (v : LVal)
    (h : k1 ≠ k) : getProp (fs ++ [(k, v)]) k1 = getProp fs k1 := by
  have h' : k ≠ k1 := Ne.symm h
  induction fs with
  | nil => simp [getProp, h']
  | cons p rest ih =>
      obtain ⟨k2, v2⟩ := p
      by_cases h2 : k2 = k1
      · simp [getProp, h2]
      · simp [getProp, h2, ih]

theorem getProp_isSome_of_mem (fs : List (String × LVal)) (k : String)
    (h : k ∈ keysOf fs) : (getProp fs k).isSome := by
  induction fs with
  | nil => simp [keysOf] at h
  | cons p rest ih =>
      obtain ⟨k1, v1⟩ := p
      by_cases h1 : k1 = k
      · simp [getProp, h1]
      · have h2 : k = k1 ∨ k ∈ keysOf rest := by simpa [keysOf] using h
        rcases h2 with h2 | h2
        · exact absurd h2.symm h1
        · simpa [getProp, h1] using ih h2

/-! ## Claim theorems about the entry resolver -/

/-- **C3.** A reference carrying both a development descriptor and a
pre-built pair resolves to the development entry (kind `dev`, address
verbatim) when development is preferred and allowed, and to the
pre-built entry (kind `url`) when development preference is off; there
an entry that is already a full http(s) address is used as-is, and a
relative entry is resolved against the (possibly origin-relative)
base. -/
theorem c3_entry_precedence (origin nm ver b en d : String) (sty : Option (List String))
    (sp pfr : Option String) (opts : ResolveOpts)
    (hd : d ≠ "") (hb : b ≠ "") (he : en ≠ "") :
    (opts.preferDev = true → opts.allowDev.getD true = true →
      resolveEntry origin
        { name := nm, version := ver, baseUrl := some b, entry := some en,
          styles := sty, entryDev := some d, spec := sp, prefer := pfr } opts =
        .ok (some { kind := .dev, source := d })) ∧
    (opts.preferDev = false →
      resolveEntry origin
        { name := nm, version := ver, baseUrl := some b, entry := some en,
          styles := sty, entryDev := some d, spec := sp, prefer := pfr } opts =
        .ok (some { kind := .url,
                    source := if isHttpUrl en then en
                              else urlResolve en (toAbsoluteBase origin b) })) := by
  constructor
  · intro hp ha
    simp [resolveEntry, optTruthy, hp, ha, hd, hb, he]
  · intro hp
    simp [resolveEntry, optTruthy, hp, hd, hb, he]

/-- Witness for C3 at a concrete reference. -/
theorem c3_entry_precedence_witness :
    resolveEntry "http://h"
      { name := "m", version := "1", baseUrl := some "/m/", entry := some "index.js",
        styles := none, entryDev := some "/d.ts", spec := none, prefer := none }
      { preferDev := true, allowDev := none, resolveSpecifier := none } =
      .ok (some { kind := .dev, source := "/d.ts" }) ∧
    resolveEntry "http://h"
      { name := "m", version := "1", baseUrl := some "/m/", entry := some "index.js",
        styles := none, entryDev := some "/d.ts", spec := none, prefer := none }
      { preferDev := false, allowDev := none, resolveSpecifier := none } =
      .ok (some { kind := .url, source := "http://h/m/index.js" }) := by
  have h := c3_entry_precedence "http://h" "m" "1" "/m/" "index.js" "/d.ts" none none none
    { preferDev := false, allowDev := none, resolveSpecifier := none }
    (by decide) (by decide) (by decide)
  have h2 := c3_entry_precedence "http://h" "m" "1" "/m/" "index.js" "/d.ts" none none none
    { preferDev := true, allowDev := none, resolveSpecifier := none }
    (by decide) (by decide) (by decide)
  refine ⟨h2.1 rfl rfl, ?_⟩
  have h3 := h.2 rfl
  rw [h3]
  rfl

/-- **C10.** With a development descriptor present and development
preference on, an unset allow-development flag is treated as allowed
(`allowDev ?? true`), as is an explicit `true`; only an explicit
`false` diverts resolution away from the development branch. -/
theorem c10_allowDev_unset_is_allowed (origin : String) (ref : RemoteModuleRef)
    (d : String) (opts : ResolveOpts) (hdev : ref.entryDev = some d) (hd : d ≠ "") :
    (opts.preferDev = true → opts.allowDev = none →
        resolveEntry origin ref opts = .ok (some { kind := .dev, source := d })) ∧
    (opts.preferDev = true → opts.allowDev = some true →
        resolveEntry origin ref opts = .ok (some { kind := .dev, source := d })) ∧
    (∀ info, opts.allowDev = some false → resolveEntry origin ref opts = .ok (some info) →
        info.kind ≠ .dev) := by
  refine ⟨?_, ?_, ?_⟩
  · intro hp ha
    simp [resolveEntry, optTruthy, hp, ha, hdev, hd]
  · intro hp ha
    simp [resolveEntry, optTruthy, hp, ha, hdev, hd]
  · intro info ha h
    simp only [resolveEntry, ha, Option.getD_some, Bool.and_false, Bool.false_and,
      Bool.false_eq_true, if_false] at h
    repeat' split at h
    all_goals try exact Except.noConfusion h
    all_goals injection h with h1
    all_goals try exact Option.noConfusion h1
    all_goals injection h1 with h2
    all_goals subst h2
    all_goals simp

/-- Witness for C10 at a concrete reference. -/
theorem c10_allowDev_unset_is_allowed_witness :
    resolveEntry "http://h" { name := "m", version := "1", entryDev := some "/d.ts" }
      { preferDev := true, allowDev := none, resolveSpecifier := none } =
      .ok (some { kind := .dev, source := "/d.ts" }) := by
  exact (c10_allowDev_unset_is_allowed "http://h"
    { name := "m", version := "1", entryDev := some "/d.ts" } "/d.ts"
    { preferDev := true, allowDev := none, resolveSpecifier := none }
    rfl (by decide)).1 rfl rfl

theorem stylesStep_loaded (env : Env) (st : PassState) (ref : RemoteModuleRef) :
    (stylesStep env st ref).loaded = st.loaded := by
  unfold stylesStep
  split <;> rfl

theorem stylesStep_errors (env : Env) (st : PassState) (ref : RemoteModuleRef) :
    (stylesStep env st ref).errors = st.errors := by
  unfold stylesStep
  split <;> rfl

theorem stylesStep_trace (env : Env) (st : PassState) (ref : RemoteModuleRef) :
    (stylesStep env st ref).trace = st.trace := by
  unfold stylesStep
  split <;> rfl

/-- **C8.** A reference with no usable entry descriptor (falsy
development address, no truthy base+entry pair, falsy specifier)
resolves to `null`; the orchestrator skips it with only a warning: no
error record, no loaded record, and the pass continues with the
remaining references. -/
theorem c8_no_descriptor_skipped (env : Env) (cfg : PassCfg) (st : PassState)
    (ref : RemoteModuleRef) (rest : List RemoteModuleRef)
    (h1 : optTruthy ref.entryDev = false)
    (h2 : optTruthy ref.baseUrl = false ∨ optTruthy ref.entry = false)
    (h3 : optTruthy ref.spec = false) :
    (∀ origin opts, resolveEntry origin ref opts = .ok none) ∧
    (processOne env cfg st ref).2 = none ∧
    (processOne env cfg st ref).1.loaded = st.loaded ∧
    (processOne env cfg st ref).1.errors = st.errors ∧
    (processOne env cfg st ref).1.trace = st.trace ++ [noEntryMsg ref] ∧
    runRefs env cfg st (ref :: rest) = runRefs env cfg (processOne env cfg st ref).1 rest := by
  have hres : ∀ origin opts, resolveEntry origin ref opts = .ok none := by
    intro origin opts
    rcases h2 with hb | he
    · simp [resolveEntry, h1, h3, hb]
    · simp [resolveEntry, h1, h3, he]
  have hp : processOne env cfg st ref =
      ({ stylesStep env st ref with trace := (stylesStep env st ref).trace ++ [noEntryMsg ref] },
        none) := by
    simp only [processOne, hres]
  refine ⟨hres, ?_, ?_, ?_, ?_, ?_⟩
  · rw [hp]
  · rw [hp]
    exact stylesStep_loaded env st ref
  · rw [hp]
    exact stylesStep_errors env st ref
  · rw [hp]
    simpa using stylesStep_trace env st ref
  · conv_lhs => rw [runRefs, hp]
    rw [hp]

/-- Witness for C8: a reference with no descriptors at all inside a
two-entry pass. -/
theorem c8_no_descriptor_skipped_witness :
    (processOne
      { windowFetch := fun _ => .error "unused", importMod := fun _ => .ok none }
      { preferDev := true, allowDev := none, resolveSpecifier := none,
        nsStrategy := .moduleName, guard := .byName, onModuleLoaded := none,
        onModuleError := none }
      { host := { router := {}, i18n := [] } }
      { name := "empty", version := "0" }).1.errors = [] ∧
    (processOne
      { windowFetch := fun _ => .error "unused", importMod := fun _ => .ok none }
      { preferDev := true, allowDev := none, resolveSpecifier := none,
        nsStrategy := .moduleName, guard := .byName, onModuleLoaded := none,
        onModuleError := none }
      { host := { router := {}, i18n := [] } }
      { name := "empty", version := "0" }).1.loaded = [] := by
  have h := c8_no_descriptor_skipped
    { windowFetch := fun _ => .error "unused", importMod := fun _ => .ok none }
    { preferDev := true, allowDev := none, resolveSpecifier := none,
      nsStrategy := .moduleName, guard := .byName, onModuleLoaded := none,
      onModuleError := none }
    { host := { router := {}, i18n := [] } }
    { name := "empty", version := "0" } [] rfl (Or.inl rfl) rfl
  exact ⟨h.2.2.2.1, h.2.2.1⟩

/-- **C7 counterexample.** Under the `"name"` policy the source only
falls back to the path comparison for a *truthy* path and only honours
a *truthy* name: an unnamed candidate whose empty path is already
registered is admitted (count grows to 2), and a candidate named `""`
whose name is already registered is also admitted. -/
theorem c7_counterexample :
    (routeStep .byName { names := ["x"], paths := [""] }
        { name := none, path := "" }).1.count = 2 ∧
    (routeStep .byName { names := [""], paths := ["/p"] }
        { name := some "", path := "/q" }).1.count = 2 := by
  constructor <;> rfl

/-- **C7 (amended).** Under the `"name"` policy a candidate with a
non-empty name already registered is skipped (router unchanged), and an
unnamed candidate whose non-empty path is already registered is
skipped; under `"path"` a candidate whose non-empty path is registered
is skipped; with the guard disabled every candidate is admitted. -/
theorem c7_duplicate_route_guard (rt : RouterState) (r : RouteRecord) :
    (∀ nm, r.name = some nm → nm ≠ "" → rt.hasRoute nm = true →
        (routeStep .byName rt r).1 = rt) ∧
    (optTruthy r.name = false → r.path ≠ "" → routerHasPath rt r.path = true →
        (routeStep .byName rt r).1 = rt) ∧
    (r.path ≠ "" → routerHasPath rt r.path = true → (routeStep .byPath rt r).1 = rt) ∧
    routeStep .off rt r = (rt.addRoute r, []) := by
  refine ⟨?_, ?_, ?_, rfl⟩
  · intro nm hn hne hhas
    simp [routeStep, optTruthy, hn, hne, hhas]
  · intro hn hpne hhas
    simp [routeStep, hn, hpne, hhas]
  · intro hpne hhas
    simp [routeStep, hpne, hhas]

/-- Witness for the amended C7 at a concrete router. -/
theorem c7_duplicate_route_guard_witness :
    (routeStep .byName { names := ["admin-index"], paths := ["/admin"] }
        { name := some "admin-index", path := "/x" }).1 =
      { names := ["admin-index"], paths := ["/admin"] } ∧
    (routeStep .byName { names := ["admin-index"], paths := ["/admin"] }
        { name := none, path := "/admin" }).1 =
      { names := ["admin-index"], paths := ["/admin"] } ∧
    (routeStep .byPath { names := ["admin-index"], paths := ["/admin"] }
        { name := some "other", path := "/admin" }).1 =
      { names := ["admin-index"], paths := ["/admin"] } := by
  refine ⟨?_, ?_, ?_⟩
  · exact (c7_duplicate_route_guard { names := ["admin-index"], paths := ["/admin"] }
      { name := some "admin-index", path := "/x" }).1 "admin-index" rfl (by decide) (by rfl)
  · exact (c7_duplicate_route_guard { names := ["admin-index"], paths := ["/admin"] }
      { name := none, path := "/admin" }).2.1 rfl (by decide) (by rfl)
  · exact (c7_duplicate_route_guard { names := ["admin-index"], paths := ["/admin"] }
      { name := some "other", path := "/admin" }).2.2.1 (by decide) (by rfl)

/-- **C9.** When merging with a non-empty namespace and the per-language
value's sole substantive key (ignoring `__`-keys) is the namespace
itself, the merger unwraps one level: the payload handed to the store is
the namespace wrapped exactly once around the expansion of the *inner*
value, not namespace-within-namespace. -/
theorem c9_namespace_unwrap (store : I18nStore) (lang n : String)
    (fs g eg : List (String × LVal))
    (hn : n ≠ "")
    (hw : hasOnlyNsAndMeta fs n = true)
    (hg : getProp fs n = some (.obj g))
    (he : expandDottedKeys g = .ok eg) :
    mergeLocaleEntry store (some n) lang (.obj fs) =
      .ok (mergeLocaleMessage store lang (.obj [(n, .obj eg)])) := by
  simp [mergeLocaleEntry, LVal.asRecord, hn, hw, hg, he, mergeStep]

/-- Witness for C9: a locale file authored with the namespace already
embedded (plus a `__meta` key) is unwrapped once. -/
theorem c9_namespace_unwrap_witness :
    mergeLocaleEntry [] (some "admin") "en"
      (.obj [("admin", .obj [("a.b", .num 1)]), ("__meta", .num 0)]) =
      .ok [("en", .obj [("admin", .obj [("a", .obj [("b", .num 1)])])])] := by
  have h := c9_namespace_unwrap [] "en" "admin"
    [("admin", .obj [("a.b", .num 1)]), ("__meta", .num 0)]
    [("a.b", .num 1)] [("a", .obj [("b", .num 1)])]
    (by decide) (by rfl) (by rfl)
    (by simp [expandDottedKeys, expandGo, hasDot, setDeep, splitDots, splitDotsAux, assign, getProp])
  rw [h]
  simp [mergeLocaleMessage, getProp, deepMerge, mergeFields, assign]

/-- **C6.** The bundle's explicit `i18nNamespace` (including explicit
null and the empty string) takes precedence over the configured
strategy; the strategy is consulted only when `i18nNamespace` is
undefined and is either the literal module name or a caller-supplied
function of (name, bundle); a null or empty namespace merges the
expanded tree at the root of the language's messages (not nested under
the module's name). -/
theorem c6_namespace_precedence_and_root_merge :
    (∀ strat b, b.i18nNamespace = some none → resolveNamespace strat b = .ok none) ∧
    (∀ strat b, b.i18nNamespace = some (some "") → resolveNamespace strat b = .ok (some "")) ∧
    (∀ b, b.i18nNamespace = none → resolveNamespace .moduleName b = .ok (some b.name)) ∧
    (∀ f b s, b.i18nNamespace = none → f b.name b = .ok s →
        resolveNamespace (.computed f) b = .ok (some s)) ∧
    (∀ store lang fs e nsv, (nsv = none ∨ nsv = some "") → expandDottedKeys fs = .ok e →
        mergeLocaleEntry store nsv lang (.obj fs) =
          .ok (mergeLocaleMessage store lang (.obj e))) := by
  refine ⟨?_, ?_, ?_, ?_, ?_⟩
  · intro strat b h
    simp [resolveNamespace, h]
  · intro strat b h
    simp [resolveNamespace, h]
  · intro b h
    simp [resolveNamespace, h]
  · intro f b s h hf
    simp [resolveNamespace, h, hf]
  · intro store lang fs e nsv hns he
    rcases hns with h | h <;> subst h <;>
      simp [mergeLocaleEntry, LVal.asRecord, he, mergeStep]

/-- Witness for C6: a bundle with explicit null namespace under any
strategy, and the spec round-trip example of a root merge of
`{en: {greeting: "hi"}}`. -/
theorem c6_namespace_precedence_and_root_merge_witness :
    resolveNamespace .moduleName
      { name := "admin", version := "1", i18nNamespace := some none } = .ok none ∧
    mergeLocaleEntry [] none "en" (.obj [("greeting", .str "hi")]) =
      .ok [("en", .obj [("greeting", .str "hi")])] := by
  constructor
  · exact c6_namespace_precedence_and_root_merge.1 .moduleName
      { name := "admin", version := "1", i18nNamespace := some none } rfl
  · have h := c6_namespace_precedence_and_root_merge.2.2.2.2 [] "en"
      [("greeting", .str "hi")] [("greeting", .str "hi")] none (Or.inl rfl)
      (by simp [expandDottedKeys, expandGo, hasDot, assign])
    rw [h]
    simp [mergeLocaleMessage, getProp, deepMerge, mergeFields, assign]

/-! ## Dot-freedom of the expansion (C5) -/

theorem dotFree_cons (k : String) (v : LVal) (rest : List (String × LVal)) :
    dotFreeVal (.obj ((k, v) :: rest)) =
      (!hasDot k && dotFreeVal v && dotFreeVal (.obj rest)) := by
  simp [dotFreeVal]

theorem dotFree_nonObj (v : LVal) (h : ∀ gs, v = LVal.obj gs → False) :
    dotFreeVal v = true := by
  cases v with
  | obj gs => exact (h gs rfl).elim
  | nullv => simp [dotFreeVal]
  | boolv b => simp [dotFreeVal]
  | num n => simp [dotFreeVal]
  | str s => simp [dotFreeVal]
  | arr xs => simp [dotFreeVal]

theorem splitDotsAux_dotFree (cs : List Char) :
    ∀ acc, (∀ c ∈ acc, c ≠ '.') → ∀ s ∈ splitDotsAux cs acc, hasDot s = false := by
  induction cs with
  | nil =>
      intro acc hacc s hs
      simp [splitDotsAux] at hs
      subst hs
      simp [hasDot]
      intro c hc
      exact hacc c (by simpa using hc)
  | cons c cs ih =>
      intro acc hacc s hs
      by_cases hc : c = '.'
      · simp [splitDotsAux, hc] at hs
        rcases hs with hs | hs
        · subst hs
          simp [hasDot]
          intro c1 hc1
          exact hacc c1 (by simpa using hc1)
        · exact ih [] (by simp) s hs
      · simp [splitDotsAux, hc] at hs
        refine ih (c :: acc) ?_ s hs
        intro c1 hc1
        rcases List.mem_cons.mp hc1 with h1 | h1
        · simpa [h1] using hc
        · exact hacc c1 h1

theorem splitDots_dotFree (k : String) : ∀ s ∈ splitDots k, hasDot s = false :=
  splitDotsAux_dotFree k.data [] (by simp)

theorem getProp_dotFree (fs : List (String × LVal)) (k : String) (v : LVal)
    (hdf : dotFreeVal (.obj fs) = true) (hg : getProp fs k = some v) :
    dotFreeVal v = true := by
  induction fs with
  | nil => simp [getProp] at hg
  | cons p rest ih =>
      obtain ⟨k1, v1⟩ := p
      rw [dotFree_cons] at hdf
      simp only [Bool.and_eq_true] at hdf
      by_cases h1 : k1 = k
      · simp [getProp, h1] at hg
        exact hg ▸ hdf.1.2
      · simp only [getProp, if_neg h1] at hg
        exact ih hdf.2 hg

theorem assign_dotFree (fs : List (String × LVal)) (k : String) (v : LVal)
    (hdf : dotFreeVal (.obj fs) = true) (hk : hasDot k = false) (hv : dotFreeVal v = true) :
    dotFreeVal (.obj (assign fs k v)) = true := by
  induction fs with
  | nil => simp [assign, dotFree_cons, dotFreeVal, hk, hv]
  | cons p rest ih =>
      obtain ⟨k1, v1⟩ := p
      rw [dotFree_cons] at hdf
      simp only [Bool.and_eq_true] at hdf
      by_cases h1 : k1 = k
      · simp [assign, h1, dotFree_cons, hk, hv, hdf.2]
      · simp only [assign, if_neg h1]
        rw [dotFree_cons]
        simp [hdf.1.1, hdf.1.2, ih hdf.2]

theorem setDeep_dotFree (segs : List String) :
    ∀ (fs : List (String × LVal)) (v : LVal) (r : List (String × LVal)),
      dotFreeVal (.obj fs) = true → (∀ s ∈ segs, hasDot s = false) →
      dotFreeVal v = true → setDeep fs segs v = .ok r → dotFreeVal (.obj r) = true := by
  induction segs with
  | nil =>
      intro fs v r hfs _ _ h
      simp only [setDeep, Except.ok.injEq] at h
      exact h ▸ hfs
  | cons seg rest ih =>
      intro fs v r hfs hsegs hv h
      cases rest with
      | nil =>
          simp only [setDeep, Except.ok.injEq] at h
          exact h ▸ assign_dotFree fs seg v hfs (hsegs seg (by simp)) hv
      | cons seg2 rest2 =>
          simp only [setDeep] at h
          cases hg : getProp fs seg with
          | none =>
              simp only [hg] at h
              cases hsd : setDeep [] (seg2 :: rest2) v with
              | error e =>
                  simp only [hsd] at h
                  exact Except.noConfusion h
              | ok gs2 =>
                  simp only [hsd, Except.ok.injEq] at h
                  have hgs2 := ih [] v gs2 (by simp [dotFreeVal])
                    (fun s hs => hsegs s (by simp [hs])) hv hsd
                  exact h ▸ assign_dotFree fs seg (.obj gs2) hfs (hsegs seg (by simp)) hgs2
          | some c =>
              simp only [hg] at h
              by_cases ht : c.truthy = true
              · simp only [ht, if_true] at h
                cases c with
                | obj gs =>
                    cases hsd : setDeep gs (seg2 :: rest2) v with
                    | error e =>
                        simp only [hsd] at h
                        exact Except.noConfusion h
                    | ok gs2 =>
                        simp only [hsd, Except.ok.injEq] at h
                        have hgs : dotFreeVal (.obj gs) = true :=
                          getProp_dotFree fs seg _ hfs hg
                        have hgs2 := ih gs v gs2 hgs
                          (fun s hs => hsegs s (by simp [hs])) hv hsd
                        exact h ▸ assign_dotFree fs seg (.obj gs2) hfs
                          (hsegs seg (by simp)) hgs2
                | arr xs => exact Except.noConfusion h
                | nullv => exact Except.noConfusion h
                | boolv b => exact Except.noConfusion h
                | num n => exact Except.noConfusion h
                | str s => exact Except.noConfusion h
              · rw [if_neg ht] at h
                cases hsd : setDeep [] (seg2 :: rest2) v with
                | error e =>
                    simp only [hsd] at h
                    exact Except.noConfusion h
                | ok gs2 =>
                    simp only [hsd, Except.ok.injEq] at h
                    have hgs2 := ih [] v gs2 (by simp [dotFreeVal])
                      (fun s hs => hsegs s (by simp [hs])) hv hsd
                    exact h ▸ assign_dotFree fs seg (.obj gs2) hfs
                      (hsegs seg (by simp)) hgs2

theorem expandGo_dotFree : ∀ (acc l : List (String × LVal)),
    dotFreeVal (.obj acc) = true → ∀ r, expandGo acc l = .ok r →
    dotFreeVal (.obj r) = true := by
  intro acc l
  induction acc, l using expandGo.induct with
  | case1 acc =>
      intro hacc r h
      simp only [expandGo, Except.ok.injEq] at h
      exact h ▸ hacc
  | case2 acc k rest hdot gs e hge _ =>
      intro hacc r h
      simp [expandGo, hdot, hge] at h
  | case3 acc k rest hdot gs gs2 hge e hsd _ =>
      intro hacc r h
      simp [expandGo, hdot, hge, hsd] at h
  | case4 acc k rest hdot gs gs2 hge gs3 hsd ih1 ih2 =>
      intro hacc r h
      simp only [expandGo, hdot, if_true, hge, hsd] at h
      have hgs2 : dotFreeVal (.obj gs2) = true := ih1 (by simp [dotFreeVal]) gs2 hge
      have hgs3 := setDeep_dotFree (splitDots k) acc (.obj gs2) gs3 hacc
        (splitDots_dotFree k) hgs2 hsd
      exact ih2 hgs3 r h
  | case5 acc k rest hdot v1 hne e hsd =>
      intro hacc r h
      cases v1 with
      | obj gs => exact (hne gs rfl).elim
      | nullv => simp [expandGo, hdot, hsd] at h
      | boolv b => simp [expandGo, hdot, hsd] at h
      | num n => simp [expandGo, hdot, hsd] at h
      | str s => simp [expandGo, hdot, hsd] at h
      | arr xs => simp [expandGo, hdot, hsd] at h
  | case6 acc k rest hdot v1 hne gs2 hsd ih =>
      intro hacc r h
      have hv1 : dotFreeVal v1 = true := dotFree_nonObj v1 hne
      have hgs2 := setDeep_dotFree (splitDots k) acc v1 gs2 hacc (splitDots_dotFree k) hv1 hsd
      cases v1 with
      | obj gs => exact (hne gs rfl).elim
      | nullv =>
          simp only [expandGo, hdot, if_true, hsd] at h
          exact ih hgs2 r h
      | boolv b =>
          simp only [expandGo, hdot, if_true, hsd] at h
          exact ih hgs2 r h
      | num n =>
          simp only [expandGo, hdot, if_true, hsd] at h
          exact ih hgs2 r h
      | str s =>
          simp only [expandGo, hdot, if_true, hsd] at h
          exact ih hgs2 r h
      | arr xs =>
          simp only [expandGo, hdot, if_true, hsd] at h
          exact ih hgs2 r h
  | case7 acc k rest hdot gs e hge _ =>
      intro hacc r h
      simp [expandGo, hdot, hge] at h
  | case8 acc k rest hdot gs gs2 hge ih1 ih2 =>
      intro hacc r h
      simp [expandGo, hdot, hge] at h
      have hgs2 : dotFreeVal (.obj gs2) = true := ih1 (by simp [dotFreeVal]) gs2 hge
      have hk : hasDot k = false := by simpa using hdot
      have hacc2 := assign_dotFree acc k (.obj gs2) hacc hk hgs2
      exact ih2 hacc2 r h
  | case9 acc k rest hdot v1 hne ih =>
      intro hacc r h
      have hv1 : dotFreeVal v1 = true := dotFree_nonObj v1 hne
      have hk : hasDot k = false := by simpa using hdot
      have hacc2 := assign_dotFree acc k v1 hacc hk hv1
      cases v1 with
      | obj gs => exact (hne gs rfl).elim
      | nullv =>
          simp [expandGo, hdot] at h
          exact ih hacc2 r h
      | boolv b =>
          simp [expandGo, hdot] at h
          exact ih hacc2 r h
      | num n =>
          simp [expandGo, hdot] at h
          exact ih hacc2 r h
      | str s =>
          simp [expandGo, hdot] at h
          exact ih hacc2 r h
      | arr xs =>
          simp [expandGo, hdot] at h
          exact ih hacc2 r h

/-- **C5.** A dotted key expands to the fully nested equivalent
(`{"a.b": 1}` becomes `{a:{b:1}}`); every successful expansion yields a
tree with no dotted key anywhere (arrays being leaves of this
predicate, since they are not expanded); the expansion recurses into
object values but assigns array values as-is, both for plain and for
dotted keys. -/
theorem c5_dotted_keys_expanded :
    (expandDottedKeys [("a.b", .num 1)] = .ok [("a", .obj [("b", .num 1)])]) ∧
    (∀ fs r, expandDottedKeys fs = .ok r → dotFreeVal (.obj r) = true) ∧
    (∀ acc k xs rest, hasDot k = false →
        expandGo acc ((k, .arr xs) :: rest) = expandGo (assign acc k (.arr xs)) rest) ∧
    (∀ acc k gs rest egs, hasDot k = false → expandGo [] gs = .ok egs →
        expandGo acc ((k, .obj gs) :: rest) = expandGo (assign acc k (.obj egs)) rest) ∧
    (∀ acc k xs rest acc2, hasDot k = true →
        setDeep acc (splitDots k) (.arr xs) = .ok acc2 →
        expandGo acc ((k, .arr xs) :: rest) = expandGo acc2 rest) := by
  refine ⟨?_, ?_, ?_, ?_, ?_⟩
  · simp [expandDottedKeys, expandGo, hasDot, setDeep, splitDots, splitDotsAux, assign, getProp]
  · intro fs r h
    exact expandGo_dotFree [] fs (by simp [dotFreeVal]) r h
  · intro acc k xs rest h
    simp [expandGo, h]
  · intro acc k gs rest egs h he
    simp [expandGo, h, he]
  · intro acc k xs rest acc2 h hsd
    simp [expandGo, h, hsd]

/-- Witness for C5: the expansion of `{"a.b": 1}` is dot-free. -/
theorem c5_dotted_keys_expanded_witness :
    dotFreeVal (.obj [("a", .obj [("b", .num 1)])]) = true :=
  c5_dotted_keys_expanded.2.1 [("a.b", .num 1)] [("a", .obj [("b", .num 1)])]
    (by simp [expandDottedKeys, expandGo, hasDot, setDeep, splitDots, splitDotsAux, assign, getProp])

/-! ## Non-destructive merging (C4) -/

theorem deepMerge_obj_obj (xs m : List (String × LVal)) :
    deepMerge (.obj xs) (.obj m) = .obj (mergeFields xs m) := by
  simp [deepMerge]

theorem deepMerge_nonobj_obj (x : LVal) (m : List (String × LVal))
    (h : ∀ xs, x = LVal.obj xs → False) : deepMerge x (.obj m) = .obj m := by
  cases x with
  | obj xs => exact (h xs rfl).elim
  | nullv => simp [deepMerge]
  | boolv b => simp [deepMerge]
  | num n => simp [deepMerge]
  | str s => simp [deepMerge]
  | arr ys => simp [deepMerge]

theorem mergeFields_single (xs : List (String × LVal)) (n : String) (v : LVal) :
    mergeFields xs [(n, v)] =
      match getProp xs n with
      | some w => assign xs n (deepMerge w v)
      | none => xs ++ [(n, v)] := by
  cases hg : getProp xs n <;> simp [mergeFields, hg]

theorem getProp_mergeFields_not_mem (news : List (String × LVal)) :
    ∀ olds k1, k1 ∉ keysOf news →
      getProp (mergeFields olds news) k1 = getProp olds k1 := by
  induction news with
  | nil =>
      intro olds k1 _
      simp [mergeFields]
  | cons p rest ih =>
      obtain ⟨k, v⟩ := p
      intro olds k1 hk
      simp only [keysOf, List.map_cons, List.mem_cons, not_or] at hk
      have hk1 : k1 ∉ keysOf rest := by simpa [keysOf] using hk.2
      cases hg : getProp olds k with
      | some old =>
          simp only [mergeFields, hg]
          rw [ih _ k1 hk1]
          exact getProp_assign_ne olds k k1 (deepMerge old v) hk.1
      | none =>
          simp only [mergeFields, hg]
          rw [ih _ k1 hk1]
          exact getProp_append_ne olds k k1 v hk.1

theorem getProp_mergeFields_isSome_persist (news : List (String × LVal)) :
    ∀ olds k1, (getProp olds k1).isSome = true →
      (getProp (mergeFields olds news) k1).isSome = true := by
  induction news with
  | nil =>
      intro olds k1 hs
      simpa [mergeFields] using hs
  | cons p rest ih =>
      obtain ⟨k, v⟩ := p
      intro olds k1 hs
      cases hg : getProp olds k with
      | some old =>
          simp only [mergeFields, hg]
          refine ih _ k1 ?_
          by_cases hk : k1 = k
          · subst hk
            simp [getProp_assign_self]
          · rw [getProp_assign_ne olds k k1 (deepMerge old v) hk]
            exact hs
      | none =>
          simp only [mergeFields, hg]
          refine ih _ k1 ?_
          by_cases hk : k1 = k
          · subst hk
            rw [hg] at hs
            simp at hs
          · rw [getProp_append_ne olds k k1 v hk]
            exact hs

theorem getProp_mergeFields_isSome_of_mem (news : List (String × LVal)) :
    ∀ olds k1, k1 ∈ keysOf news →
      (getProp (mergeFields olds news) k1).isSome = true := by
  induction news with
  | nil =>
      intro olds k1 hk
      simp [keysOf] at hk
  | cons p rest ih =>
      obtain ⟨k, v⟩ := p
      intro olds k1 hk
      have hk2 : k1 = k ∨ k1 ∈ keysOf rest := by simpa [keysOf] using hk
      rcases hk2 with hk2 | hk2
      · subst hk2
        cases hg : getProp olds k1 with
        | some old =>
            simp only [mergeFields, hg]
            refine getProp_mergeFields_isSome_persist rest _ k1 ?_
            simp [getProp_assign_self]
        | none =>
            simp only [mergeFields, hg]
            refine getProp_mergeFields_isSome_persist rest _ k1 ?_
            simp [getProp_append_of_none olds k1 v hg]
      · cases hg : getProp olds k with
        | some old => simpa only [mergeFields, hg] using ih _ k1 hk2
        | none => simpa only [mergeFields, hg] using ih _ k1 hk2

theorem subtreeAt_eq (store : I18nStore) (lang n : String)
    (fs gs : List (String × LVal))
    (h1 : getProp store lang = some (.obj fs)) (h2 : getProp fs n = some (.obj gs)) :
    subtreeAt store lang n = gs := by
  simp [subtreeAt, h1, h2]

/-- Packaging step: once the deep-merge value of the language entry is
known as an object with the namespace subtree, the store shape after
`mergeLocaleMessage` follows. -/
theorem mergeLocaleMessage_shape_of (store : I18nStore) (lang n : String)
    (msg : LVal) (fs1 hs1 : List (String × LVal))
    (hD : deepMerge ((getProp store lang).getD (.obj [])) msg = .obj fs1)
    (hfs : getProp fs1 n = some (.obj hs1)) :
    getProp (mergeLocaleMessage store lang msg) lang = some (.obj fs1) ∧
    subtreeAt (mergeLocaleMessage store lang msg) lang n = hs1 := by
  unfold mergeLocaleMessage
  rw [hD]
  exact ⟨getProp_assign_self _ _ _,
    subtreeAt_eq _ lang n _ _ (getProp_assign_self _ _ _) hfs⟩

/-- After one namespaced merge, the language entry is an object whose
namespace field is an object containing every key of the merged tree. -/
theorem mergeLocaleMessage_ns_shape (store : I18nStore) (lang n : String)
    (e : List (String × LVal)) :
    ∃ fs1 hs1,
      getProp (mergeLocaleMessage store lang (.obj [(n, .obj e)])) lang = some (.obj fs1) ∧
      getProp fs1 n = some (.obj hs1) ∧
      subtreeAt (mergeLocaleMessage store lang (.obj [(n, .obj e)])) lang n = hs1 ∧
      (∀ k, k ∈ keysOf e → (getProp hs1 k).isSome = true) := by
  cases hx : getProp store lang with
  | none =>
      have hD : deepMerge ((getProp store lang).getD (.obj []))
          (.obj [(n, .obj e)]) = .obj [(n, .obj e)] := by
        rw [hx]
        simp only [Option.getD_none]
        rw [deepMerge_obj_obj]
        congr 1
        simp [mergeFields, getProp]
      have hfs : getProp [(n, .obj e)] n = some (.obj e) := by simp [getProp]
      obtain ⟨h1, h2⟩ := mergeLocaleMessage_shape_of store lang n _ _ _ hD hfs
      exact ⟨_, _, h1, hfs, h2, fun k hk => getProp_isSome_of_mem e k hk⟩
  | some x =>
      cases x
      case obj xs =>
          cases hw : getProp xs n with
          | none =>
              have hD : deepMerge ((getProp store lang).getD (.obj []))
                  (.obj [(n, .obj e)]) = .obj (xs ++ [(n, .obj e)]) := by
                rw [hx]
                simp only [Option.getD_some]
                rw [deepMerge_obj_obj, mergeFields_single, hw]
              have hfs : getProp (xs ++ [(n, .obj e)]) n = some (.obj e) :=
                getProp_append_of_none xs n (.obj e) hw
              obtain ⟨h1, h2⟩ := mergeLocaleMessage_shape_of store lang n _ _ _ hD hfs
              exact ⟨_, _, h1, hfs, h2, fun k hk => getProp_isSome_of_mem e k hk⟩
          | some w =>
              cases w
              case obj ws =>
                  have hD : deepMerge ((getProp store lang).getD (.obj []))
                      (.obj [(n, .obj e)]) =
                      .obj (assign xs n (.obj (mergeFields ws e))) := by
                    rw [hx]
                    simp only [Option.getD_some]
                    rw [deepMerge_obj_obj, mergeFields_single, hw]
                    simp [deepMerge]
                  have hfs : getProp (assign xs n (.obj (mergeFields ws e))) n =
                      some (.obj (mergeFields ws e)) := getProp_assign_self _ _ _
                  obtain ⟨h1, h2⟩ := mergeLocaleMessage_shape_of store lang n _ _ _ hD hfs
                  exact ⟨_, _, h1, hfs, h2,
                    fun k hk => getProp_mergeFields_isSome_of_mem e ws k hk⟩
              all_goals
                (have hD : deepMerge ((getProp store lang).getD (.obj []))
                      (.obj [(n, .obj e)]) = .obj (assign xs n (.obj e)) := by
                  rw [hx]
                  simp only [Option.getD_some]
                  rw [deepMerge_obj_obj, mergeFields_single, hw]
                  simp [deepMerge]
                 have hfs : getProp (assign xs n (.obj e)) n = some (.obj e) :=
                   getProp_assign_self _ _ _
                 obtain ⟨h1, h2⟩ := mergeLocaleMessage_shape_of store lang n _ _ _ hD hfs
                 exact ⟨_, _, h1, hfs, h2, fun k hk => getProp_isSome_of_mem e k hk⟩)
      all_goals
        (have hD : deepMerge ((getProp store lang).getD (.obj []))
              (.obj [(n, .obj e)]) = .obj [(n, .obj e)] := by
          rw [hx]
          simp only [Option.getD_some]
          simp [deepMerge]
         have hfs : getProp [(n, .obj e)] n = some (.obj e) := by simp [getProp]
         obtain ⟨h1, h2⟩ := mergeLocaleMessage_shape_of store lang n _ _ _ hD hfs
         exact ⟨_, _, h1, hfs, h2, fun k hk => getProp_isSome_of_mem e k hk⟩)

/-- A second namespaced merge into the same language and namespace
deep-merges the new tree into the existing namespace subtree. -/
theorem subtreeAt_merge_again (s1 : I18nStore) (lang n : String)
    (fs1 hs1 e2 : List (String × LVal))
    (h1 : getProp s1 lang = some (.obj fs1)) (h2 : getProp fs1 n = some (.obj hs1)) :
    subtreeAt (mergeLocaleMessage s1 lang (.obj [(n, .obj e2)])) lang n =
      mergeFields hs1 e2 := by
  have hD : deepMerge ((getProp s1 lang).getD (.obj [])) (.obj [(n, .obj e2)]) =
      .obj (assign fs1 n (.obj (mergeFields hs1 e2))) := by
    rw [h1]
    simp only [Option.getD_some]
    rw [deepMerge_obj_obj, mergeFields_single, h2]
    simp [deepMerge]
  unfold mergeLocaleMessage
  rw [hD]
  exact subtreeAt_eq _ lang n _ _ (getProp_assign_self _ _ _) (getProp_assign_self _ _ _)

/-- One namespaced `mergeLocales` step with no unwrap and a successful
expansion is exactly a namespaced store merge. -/
theorem mergeLocales_ns_step (store : I18nStore) (lang n : String)
    (t e : List (String × LVal))
    (hn : n ≠ "") (hw : hasOnlyNsAndMeta t n = false) (he : expandDottedKeys t = .ok e) :
    mergeLocales store (some n) [(lang, .obj t)] =
      (mergeLocaleMessage store lang (.obj [(n, .obj e)]), none) := by
  have hentry : mergeLocaleEntry store (some n) lang (.obj t) =
      .ok (mergeLocaleMessage store lang (.obj [(n, .obj e)])) := by
    simp [mergeLocaleEntry, LVal.asRecord, hn, hw, he, mergeStep]
  simp [mergeLocales, hentry]

/-- **C4.** Two sequential locale merges into the same namespace and
language with disjoint (expanded) key sets produce the union: keys from
the first merge absent from the second tree survive unchanged, and
every key of either tree is present afterwards — merging is
non-destructive. -/
theorem c4_sequential_merge_union (store0 s1 s2 : I18nStore) (lang n : String)
    (t1 t2 e1 e2 : List (String × LVal))
    (hn : n ≠ "")
    (hw1 : hasOnlyNsAndMeta t1 n = false) (hw2 : hasOnlyNsAndMeta t2 n = false)
    (he1 : expandDottedKeys t1 = .ok e1) (he2 : expandDottedKeys t2 = .ok e2)
    (hdisj : ∀ k, k ∈ keysOf e1 → k ∉ keysOf e2)
    (hS1 : s1 = (mergeLocales store0 (some n) [(lang, .obj t1)]).1)
    (hS2 : s2 = (mergeLocales s1 (some n) [(lang, .obj t2)]).1) :
    (mergeLocales store0 (some n) [(lang, .obj t1)]).2 = none ∧
    (mergeLocales s1 (some n) [(lang, .obj t2)]).2 = none ∧
    (∀ k, k ∈ keysOf e1 →
      getProp (subtreeAt s2 lang n) k = getProp (subtreeAt s1 lang n) k ∧
      (getProp (subtreeAt s1 lang n) k).isSome = true) ∧
    (∀ k, k ∈ keysOf e2 → (getProp (subtreeAt s2 lang n) k).isSome = true) := by
  have hm1 := mergeLocales_ns_step store0 lang n t1 e1 hn hw1 he1
  have hm2 := mergeLocales_ns_step s1 lang n t2 e2 hn hw2 he2
  have hs1 : s1 = mergeLocaleMessage store0 lang (.obj [(n, .obj e1)]) := by
    rw [hS1, hm1]
  obtain ⟨fs1, hsub, hfs1, hhs1, hsubeq, hunion1⟩ :=
    mergeLocaleMessage_ns_shape store0 lang n e1
  have hfs1' : getProp s1 lang = some (.obj fs1) := by rw [hs1]; exact hfs1
  have hsubeq' : subtreeAt s1 lang n = hsub := by rw [hs1]; exact hsubeq
  have hs2 : s2 = mergeLocaleMessage s1 lang (.obj [(n, .obj e2)]) := by
    rw [hS2, hm2]
  have hsub2 : subtreeAt s2 lang n = mergeFields hsub e2 := by
    rw [hs2]
    exact subtreeAt_merge_again s1 lang n fs1 hsub e2 hfs1' hhs1
  refine ⟨by rw [hm1], by rw [hm2], ?_, ?_⟩
  · intro k hk
    constructor
    · rw [hsub2, hsubeq']
      exact getProp_mergeFields_not_mem e2 hsub k (hdisj k hk)
    · rw [hsubeq']
      exact hunion1 k hk
  · intro k hk
    rw [hsub2]
    exact getProp_mergeFields_isSome_of_mem e2 hsub k hk

/-- Witness for C4: merging `{k1: 1}` and then `{k2: 2}` under the same
namespace keeps `k1` and adds `k2`. -/
theorem c4_sequential_merge_union_witness :
    getProp (subtreeAt [("en", LVal.obj [("ns", LVal.obj [("k1", LVal.num 1), ("k2", LVal.num 2)])])] "en" "ns") "k1" =
      getProp (subtreeAt [("en", LVal.obj [("ns", LVal.obj [("k1", LVal.num 1)])])] "en" "ns") "k1" ∧
    (getProp (subtreeAt [("en", LVal.obj [("ns", LVal.obj [("k1", LVal.num 1), ("k2", LVal.num 2)])])] "en" "ns") "k2").isSome = true := by
  have h := c4_sequential_merge_union [] [("en", LVal.obj [("ns", LVal.obj [("k1", LVal.num 1)])])]
    [("en", LVal.obj [("ns", LVal.obj [("k1", LVal.num 1), ("k2", LVal.num 2)])])]
    "en" "ns" [("k1", LVal.num 1)] [("k2", LVal.num 2)] [("k1", LVal.num 1)] [("k2", LVal.num 2)]
    (by decide) (by rfl) (by rfl)
    (by simp [expandDottedKeys, expandGo, hasDot, assign])
    (by simp [expandDottedKeys, expandGo, hasDot, assign])
    (by intro k hk; simp [keysOf] at hk ⊢; simp [hk])
    (by simp [mergeLocales, mergeLocaleEntry, LVal.asRecord, hasOnlyNsAndMeta, keysOf,
          expandDottedKeys, expandGo, hasDot, assign, mergeStep, mergeLocaleMessage,
          getProp, deepMerge, mergeFields])
    (by simp [mergeLocales, mergeLocaleEntry, LVal.asRecord, hasOnlyNsAndMeta, keysOf,
          expandDottedKeys, expandGo, hasDot, assign, mergeStep, mergeLocaleMessage,
          getProp, deepMerge, mergeFields])
  exact ⟨(h.2.2.1 "k1" (by simp [keysOf])).1, h.2.2.2 "k2" (by simp [keysOf])⟩

/-! ## Orchestrator claims (C1, C2) -/

/-- With a benign error callback, the manifest loop always returns. -/
theorem runRefs_total (env : Env) (cfg : PassCfg)
    (hcb : ∀ g, cfg.onModuleError = some g → ∀ r e, g r e = .ok ()) :
    ∀ (refs : List RemoteModuleRef) (st : PassState),
      ∃ st2, runRefs env cfg st refs = .ok st2 := by
  intro refs
  induction refs with
  | nil =>
      intro st
      exact ⟨st, rfl⟩
  | cons ref rest ih =>
      intro st
      cases hp : processOne env cfg st ref with
      | mk st2 err =>
          cases err with
          | none =>
              simp only [runRefs, hp]
              exact ih st2
          | some e =>
              cases hg : cfg.onModuleError with
              | none =>
                  simp only [runRefs, hp, hg]
                  exact ih _
              | some g =>
                  simp only [runRefs, hp, hg, hcb g hg ref e]
                  exact ih _

/-- **C2 counterexample.** With a successful manifest fetch, a throwing
`mapManifest` transform escapes `loadRemoteModules` (the transform runs
outside any try/catch), so the caller does not receive a `LoadResult`. -/
theorem c2_counterexample :
    loadRemoteModules
      { windowFetch := fun _ => .ok { ok := true, json := .ok [] },
        importMod := fun _ => .ok none }
      { router := {}, i18n := [] }
      { mapManifest := some fun _ => .error "boom" } = .error "boom" := by
  rfl

/-- **C2 (amended).** When the caller-supplied manifest transform and
error callback do not throw, every invocation returns a `LoadResult`;
and a manifest failure — a rejected fetch, a non-success status, or a
`json()` throw — returns a `LoadResult` with empty `loaded` and empty
`errors` (plus one diagnostic) rather than propagating an exception. -/
theorem c2_manifest_failure_returns_empty (env : Env) (host : HostState)
    (options : ModuleLoaderOptions)
    (hmap : ∀ refs, ∃ refs2, applyMapManifest options.mapManifest refs = .ok refs2)
    (hcb : ∀ g, options.onModuleError = some g → ∀ r e, g r e = .ok ()) :
    (∃ st, loadRemoteModules env host options = .ok st) ∧
    (∀ e, (options.fetchFn.getD env.windowFetch)
        (options.manifestUrl.getD "/modules/index.json") = .error e →
      loadRemoteModules env host options =
        .ok { host := host, trace := [(Level.error, "Manifest-Fehler:")] }) ∧
    (∀ res, (options.fetchFn.getD env.windowFetch)
        (options.manifestUrl.getD "/modules/index.json") = .ok res → res.ok = false →
      loadRemoteModules env host options =
        .ok { host := host,
              trace := [(Level.warn,
                "Manifest nicht erreichbar (" ++ options.manifestUrl.getD "/modules/index.json"
                  ++ "): " ++ toString res.status)] }) ∧
    (∀ res e, (options.fetchFn.getD env.windowFetch)
        (options.manifestUrl.getD "/modules/index.json") = .ok res → res.ok = true →
      res.json = .error e →
      loadRemoteModules env host options =
        .ok { host := host, trace := [(Level.error, "Manifest-Fehler:")] }) := by
  refine ⟨?_, ?_, ?_, ?_⟩
  · cases hfetch : (options.fetchFn.getD env.windowFetch)
        (options.manifestUrl.getD "/modules/index.json") with
    | error e =>
        refine ⟨{ host := host, trace := [(Level.error, "Manifest-Fehler:")] }, ?_⟩
        simp [loadRemoteModules, hfetch]
    | ok res =>
        cases hok : res.ok with
        | false =>
            refine ⟨{ host := host,
                      trace := [(Level.warn,
                        "Manifest nicht erreichbar (" ++ options.manifestUrl.getD "/modules/index.json"
                          ++ "): " ++ toString res.status)] }, ?_⟩
            simp [loadRemoteModules, hfetch, hok]
        | true =>
            cases hjson : res.json with
            | error e =>
                refine ⟨{ host := host, trace := [(Level.error, "Manifest-Fehler:")] }, ?_⟩
                simp [loadRemoteModules, hfetch, hok, hjson]
            | ok refs0 =>
                obtain ⟨refs2, hm⟩ := hmap refs0
                obtain ⟨st3, hr3⟩ := runRefs_total env
                  { preferDev := options.preferDevEntries.getD (!env.isProd),
                    allowDev := options.allowDevEntryInProd,
                    resolveSpecifier := options.resolveSpecifier,
                    nsStrategy := options.i18nNamespaceStrategy.getD .moduleName,
                    guard := options.guardDuplicateRoutes.getD .byName,
                    onModuleLoaded := options.onModuleLoaded,
                    onModuleError := options.onModuleError }
                  (fun g hg => hcb g hg) refs2 { host := host }
                refine ⟨st3, ?_⟩
                simp only [loadRemoteModules, hfetch, hok, hjson, hm]
                simpa using hr3
  · intro e hfetch
    simp [loadRemoteModules, hfetch]
  · intro res hfetch hok
    simp [loadRemoteModules, hfetch, hok]
  · intro res e hfetch hok hjson
    simp [loadRemoteModules, hfetch, hok, hjson]

/-- Witness for the amended C2: a 404 manifest yields the empty result. -/
theorem c2_manifest_failure_returns_empty_witness :
    loadRemoteModules
      { windowFetch := fun _ => .ok { ok := false, status := 404, json := .ok [] },
        importMod := fun _ => .ok none }
      { router := {}, i18n := [] } {} =
      .ok { host := { router := {}, i18n := [] },
            trace := [(Level.warn, "Manifest nicht erreichbar (/modules/index.json): 404")] } := by
  have h := (c2_manifest_failure_returns_empty
    { windowFetch := fun _ => .ok { ok := false, status := 404, json := .ok [] },
      importMod := fun _ => .ok none }
    { router := {}, i18n := [] } {}
    (fun refs => ⟨refs, rfl⟩)
    (fun g hg => Option.noConfusion hg)).2.2.1
    { ok := false, status := 404, json := .ok [] } rfl rfl
  simpa using h

/-- **C1.** For every two-entry manifest whose first entry throws during
dynamic import while the second is well-formed, the pass returns a
`LoadResult` with exactly one error record (the first reference, with
the thrown error) and exactly one loaded record (the second), and the
caller's error callback is invoked for the failed reference — one
entry's failure never aborts the pass. -/
theorem c1_import_failure_isolated
    (host : HostState) (isProd : Bool) (origin : String)
    (wf : String → Except JsError ManifestResponse)
    (imp : String → Except JsError (Option ModuleBundle))
    (nm1 v1 d1 nm2 v2 d2 : String) (e1 : JsError) (b2 : ModuleBundle)
    (f : RemoteModuleRef → JsError → Except JsError Unit)
    (hd1 : d1 ≠ "") (hd2 : d2 ≠ "")
    (himp1 : imp d1 = .error e1) (himp2 : imp d2 = .ok (some b2))
    (hname : b2.name ≠ "") (hloc : b2.locales = none) (hinst : b2.install = none)
    (hf : f { name := nm1, version := v1, entryDev := some d1 } e1 = .ok ()) :
    passOk (loadRemoteModules
      { isProd := isProd, origin := origin, windowFetch := wf, importMod := imp } host
      { fetchFn := some fun _ =>
          Except.ok { ok := true,
                      json := .ok [{ name := nm1, version := v1, entryDev := some d1 },
                                   { name := nm2, version := v2, entryDev := some d2 }] },
        preferDevEntries := some true, onModuleError := some f }) = true ∧
    passErrors (loadRemoteModules
      { isProd := isProd, origin := origin, windowFetch := wf, importMod := imp } host
      { fetchFn := some fun _ =>
          Except.ok { ok := true,
                      json := .ok [{ name := nm1, version := v1, entryDev := some d1 },
                                   { name := nm2, version := v2, entryDev := some d2 }] },
        preferDevEntries := some true, onModuleError := some f }) =
      [({ name := nm1, version := v1, entryDev := some d1 }, e1)] ∧
    passLoaded (loadRemoteModules
      { isProd := isProd, origin := origin, windowFetch := wf, importMod := imp } host
      { fetchFn := some fun _ =>
          Except.ok { ok := true,
                      json := .ok [{ name := nm1, version := v1, entryDev := some d1 },
                                   { name := nm2, version := v2, entryDev := some d2 }] },
        preferDevEntries := some true, onModuleError := some f }) =
      [(b2, { name := nm2, version := v2, entryDev := some d2 })] ∧
    passEvents (loadRemoteModules
      { isProd := isProd, origin := origin, windowFetch := wf, importMod := imp } host
      { fetchFn := some fun _ =>
          Except.ok { ok := true,
                      json := .ok [{ name := nm1, version := v1, entryDev := some d1 },
                                   { name := nm2, version := v2, entryDev := some d2 }] },
        preferDevEntries := some true, onModuleError := some f }) =
      [CallbackEvent.errorCb { name := nm1, version := v1, entryDev := some d1 } e1] := by
  cases hn : b2.i18nNamespace <;> cases hr : b2.routes <;>
    refine ⟨?_, ?_, ?_, ?_⟩ <;>
      simp [loadRemoteModules, applyMapManifest, runRefs, processOne, stylesStep,
        optTruthy, resolveEntry, resolveNamespace, runInstall,
        passOk, passErrors, passLoaded, passEvents,
        hd1, hd2, himp1, himp2, hname, hloc, hinst, hf, hn, hr]

/-- Witness for C1 at a concrete two-entry manifest. -/
theorem c1_import_failure_isolated_witness :
    passErrors (loadRemoteModules
      { isProd := false, origin := "http://h",
        windowFetch := fun _ => .error "unused",
        importMod := fun s =>
          if s = "/d1.ts" then .error "boom"
          else .ok (some { name := "good", version := "2" }) }
      { router := {}, i18n := [] }
      { fetchFn := some fun _ =>
          Except.ok { ok := true,
                      json := .ok [{ name := "bad", version := "1", entryDev := some "/d1.ts" },
                                   { name := "good", version := "2", entryDev := some "/d2.ts" }] },
        preferDevEntries := some true, onModuleError := some fun _ _ => .ok () }) =
      [({ name := "bad", version := "1", entryDev := some "/d1.ts" }, "boom")] ∧
    passLoaded (loadRemoteModules
      { isProd := false, origin := "http://h",
        windowFetch := fun _ => .error "unused",
        importMod := fun s =>
          if s = "/d1.ts" then .error "boom"
          else .ok (some { name := "good", version := "2" }) }
      { router := {}, i18n := [] }
      { fetchFn := some fun _ =>
          Except.ok { ok := true,
                      json := .ok [{ name := "bad", version := "1", entryDev := some "/d1.ts" },
                                   { name := "good", version := "2", entryDev := some "/d2.ts" }] },
        preferDevEntries := some true, onModuleError := some fun _ _ => .ok () }) =
      [({ name := "good", version := "2" },
        { name := "good", version := "2", entryDev := some "/d2.ts" })] := by
  have h := c1_import_failure_isolated
    { router := {}, i18n := [] } false "http://h"
    (fun _ => .error "unused")
    (fun s =>
      if s = "/d1.ts" then .error "boom"
      else .ok (some { name := "good", version := "2" }))
    "bad" "1" "/d1.ts" "good" "2" "/d2.ts" "boom" { name := "good", version := "2" }
    (fun _ _ => .ok ())
    (by decide) (by decide) (by rfl) (by rfl) (by decide) rfl rfl rfl
  exact ⟨h.2.1, h.2.2.1⟩

end RemoteModules
